import Mathlib

/-!
# Verification of the manarion-guild-stats progress engine

Shallow embedding of the core tracker logic, translated from the Python
sources (`guild-stats.py`, `db-interface.py`, `migration-script.py`).

Modelling conventions:
* Dynamic JSON-ish values (player payloads, equipment records) are modelled by
  the inductive `Json`; numbers are exact rationals (the claims under
  verification are about control flow, guards and integer arithmetic, not
  float rounding, and the numeric literals `0.02` and `0.05` are encoded as
  the exact rationals they denote).
* Python exceptions are modelled with `Except Unit`: an operation that would
  raise (`.get` on a non-dict, arithmetic on a non-number) returns `.error ()`.
  A `try/except` block is an explicit `match` on that result.
* File/DB state is passed explicitly; wall-clock timestamps are parameters.
-/

namespace GuildStats

/-- JSON-like dynamic values as handled by the Python tracker. -/
inductive Json where
  | num (q : ℚ)
  | str (s : String)
  | obj (fields : List (String × Json))
  | null

/-- Python `d.get(key, default)`: first binding of `key` when `d` is a dict,
the default when the key is absent, and an exception when `d` is not a dict. -/
def pyGet (j : Json) (key : String) (dflt : Json) : Except Unit Json :=
  match j with
  | .obj fields => .ok ((fields.lookup key).getD dflt)
  | _ => .error ()

/-- Use of a dynamic value as an arithmetic operand: raises unless numeric. -/
def asNum (j : Json) : Except Unit ℚ :=
  match j with
  | .num q => .ok q
  | _ => .error ()

/-- Python `sum(v for v in d.values() if isinstance(v, (int, float)))` over a dict body. -/
def numericSum : List (String × Json) → ℚ
  | [] => 0
  | (_, Json.num q) :: rest => q + numericSum rest
  | _ :: rest => numericSum rest

/-- Function `safe_get_infusions_count` (guild-stats.py:516-523).  The same three-way
dispatch is inlined verbatim in `process_guild_owner_data` (lines 353-356). -/
def safe_get_infusions_count (infusions_data : Json) : ℚ :=
  match infusions_data with
  | .obj fields => numericSum fields
  | .num q => q
  | _ => 0

/-- The Python built-in `round` (round-half-to-even), on exact rationals. -/
def pyRound (q : ℚ) : ℤ :=
  if q - ⌊q⌋ < 1/2 then ⌊q⌋
  else if q - ⌊q⌋ > 1/2 then ⌊q⌋ + 1
  else if ⌊q⌋ % 2 = 0 then ⌊q⌋ else ⌊q⌋ + 1

/-- Function `calculate_nexus_level` (guild-stats.py:502-510): the `upgrades <= 0` guard
returns 0 before the division is reached. -/
def calculate_nexus_level (research_damage_percent : ℚ) (upgrades : ℚ) : ℤ :=
  if upgrades ≤ 0 then 0
  else
    let base_pct : ℚ := 1/50
    let multiplier := research_damage_percent / (upgrades * base_pct)
    let level := 100 * (multiplier - 1)
    max 0 (pyRound level)

/-- Function `calculate_study_level` (guild-stats.py:512-514). -/
def calculate_study_level (total_exp_boost codex_boost enchant_boost : ℚ) : ℚ :=
  max 0 (total_exp_boost - codex_boost - enchant_boost)

/-- Lines 351-360 of `process_guild_owner_data`: the contribution of one
equipment slot to `totalEquipmentBoosts`; any dynamic-type error raises. -/
def slotContrib (equipment_item : Json) : Except Unit ℚ :=
  (pyGet equipment_item "Infusions" (Json.obj [])).bind fun infusions =>
  (pyGet equipment_item "Boosts" (Json.obj [])).bind fun boosts =>
  (pyGet boosts "40" (Json.num 0)).bind fun base_boost =>
  (asNum base_boost).bind fun b =>
  .ok ((b * (1 + (1/20) * safe_get_infusions_count infusions)) / 50)

/-- Lines 347-348: `enchant_boost = equipment_item.get("Boosts", {}).get("100", 0)`,
executed only for slot 5. -/
def enchantStep (equipment_item : Json) : Except Unit Json :=
  (pyGet equipment_item "Boosts" (Json.obj [])).bind fun boosts =>
  pyGet boosts "100" (Json.num 0)

/-- One iteration of the equipment loop (lines 341-364), i.e. the body of the
per-slot `try: ... except: continue`.  Returns the slot contribution (`none`
when the slot raised and was skipped) together with the `enchant_boost`
variable after the iteration — an assignment to `enchant_boost` made before a
later statement of the same iteration raises does persist, exactly as the
Python mutable local does. -/
def processSlot (equipments : Json) (i : ℕ) (enchant : Json) : Option ℚ × Json :=
  match pyGet equipments (toString i) (Json.obj []) with
  | .error _ => (none, enchant)
  | .ok equipment_item =>
    match (if i = 5 then enchantStep equipment_item else .ok enchant) with
    | .error _ => (none, enchant)
    | .ok enchant2 =>
      match slotContrib equipment_item with
      | .error _ => (none, enchant2)
      | .ok c => (some c, enchant2)

/-- The `for item in range(1, 9)` equipment loop: accumulates
`totalEquipmentBoosts` (first component) and `enchant_boost` (second,
initially the int 0). -/
def equipLoop (equipments : Json) : ℚ × Json :=
  (List.range' 1 8).foldl
    (fun acc i =>
      match processSlot equipments i acc.2 with
      | (some c, e) => (acc.1 + c, e)
      | (none, e) => (acc.1, e))
    (0, Json.num 0)

/-- The slot-`i` contribution viewed in isolation: fetch the slot from the
`Equipment` dict, then run the slot computation. -/
def slotResult (equipments : Json) (i : ℕ) : Except Unit ℚ :=
  (pyGet equipments (toString i) (Json.obj [])).bind fun equipment_item =>
  slotContrib equipment_item

/-- Contribution actually added for slot `i`: 0 whenever the slot raised. -/
def slotValue (equipments : Json) (i : ℕ) : ℚ :=
  ((slotResult equipments i).toOption).getD 0

/-- The intermediate and final values computed by one run of
`process_guild_owner_data` for a player payload. -/
structure OwnerCalc where
  ownerUpgrades : ℚ
  researchDamagePercent : ℚ
  nexusLevel : ℤ
  studyLevel : ℚ
deriving DecidableEq

/-- Body of `process_guild_owner_data` (guild-stats.py:322-385).  Mirrors the
statement order of the source; any exception escaping the per-slot handlers is
caught by the function-level `except`, modelled by `.error`.  The record also
exposes the intermediate `owner_upgrades` and `base_damage_percent` (which the
source prints), so theorems can speak about them. -/
def ownerCalc (player_data : Json) : Except Unit OwnerCalc :=
  (pyGet player_data "BaseBoosts" (Json.obj [])).bind fun base_boosts =>
  (pyGet player_data "TotalBoosts" (Json.obj [])).bind fun total_boosts =>
  (pyGet base_boosts "40" (Json.num 0)).bind fun owner_upgrades =>
  (pyGet base_boosts "100" (Json.num 0)).bind fun codex_exp_boost =>
  (pyGet total_boosts "100" (Json.num 0)).bind fun total_exp_boost =>
  (pyGet total_boosts "40" (Json.num 0)).bind fun tb40 =>
  (asNum tb40).bind fun tb40n =>
  let total_damage_percent := tb40n * 100
  (pyGet player_data "Equipment" (Json.obj [])).bind fun equipments =>
  let st := equipLoop equipments
  let base_damage_percent := total_damage_percent - st.1 - 100
  (asNum total_exp_boost).bind fun te =>
  (asNum codex_exp_boost).bind fun ce =>
  (asNum st.2).bind fun en =>
  let study_level := calculate_study_level te ce en
  (asNum owner_upgrades).bind fun ou =>
  let nexus_level := calculate_nexus_level base_damage_percent ou
  .ok ⟨ou, base_damage_percent, nexus_level, study_level⟩

/-- Function `process_guild_owner_data` as seen by callers: `None` on any uncaught
exception. -/
def process_guild_owner_data (player_data : Json) : Option OwnerCalc :=
  (ownerCalc player_data).toOption

/-- Function `calculate_codex_cost` (guild-stats.py:586-588):
`sum(range(start_level + 1, start_level + progress + 1))`. -/
def calculate_codex_cost (start_level : ℤ) (progress : ℤ) : ℤ :=
  if progress ≤ 0 then 0
  else ((List.range progress.toNat).map (fun (k : ℕ) => start_level + 1 + (k : ℤ))).sum

/-! ## Spec-side model of the priority-list derivation (§4.1 of the spec)

The following `spec_` definitions are written from the words of the
specification, not from the source; they exist to be compared with the
embedded code. -/

/-- Lookup in a mapping as the spec uses it: absent keys and non-mapping
containers read as null (which then defaults to 0 numerically). -/
def jget (j : Json) (key : String) : Json :=
  match j with
  | .obj fields => (fields.lookup key).getD Json.null
  | _ => Json.null

/-- Numeric reading of a dynamic value, defaulting to 0 on type mismatch. -/
def jnum : Json → ℚ
  | .num q => q
  | _ => 0

/-- Modelled from the spec: the single normalization function for the
`Infusions = Count(number) | PerType(mapping)` variant — the sum of all
infusion values if the field is a mapping, the raw numeric value otherwise,
default 0 on any type mismatch. -/
def spec_infusion_total (j : Json) : ℚ :=
  match j with
  | .obj fields => numericSum fields
  | .num q => q
  | _ => 0

/-- Modelled from the spec (§4.1 step 3): the equipment contribution of one
slot for a candidate boost-id:
`(equipmentBoost[id] * (1 + 0.05 * infusionCount)) / 50`. -/
def spec_equip_contrib (equipment : Json) (id : String) (slot : ℕ) : ℚ :=
  let item := jget equipment (toString slot)
  (jnum (jget (jget item "Boosts") id)) *
    (1 + (1/20) * spec_infusion_total (jget item "Infusions")) / 50

/-- Modelled from the spec (§4.1 step 3): the equipment contribution summed
over slots 1..8. -/
def spec_equip_sum (equipment : Json) (id : String) : ℚ :=
  ((List.range' 1 8).map (spec_equip_contrib equipment id)).sum

/-- Modelled from the spec (§4.1 steps 1-4): one candidate evaluation for a
boost-id: `(ownerUpgrades, candidateDamagePercent)` where
`ownerUpgrades = baseBoosts[id]` and
`candidateDamagePercent = totalBoosts[id] * 100 − equipmentContributionSum − 100`. -/
def spec_candidate (p : Json) (id : String) : ℚ × ℚ :=
  (jnum (jget (jget p "BaseBoosts") id),
   jnum (jget (jget p "TotalBoosts") id) * 100 -
     spec_equip_sum (jget p "Equipment") id - 100)

/-- The fixed priority list of candidate boost-ids named by the spec. -/
def spec_priority_ids : List String :=
  ["30", "31", "32", "40", "41", "42", "43", "44", "45", "46", "47", "48", "49", "50"]

/-- Modelled from the spec (§4.1 step 5): iterate the candidates in order,
stop at the first with `candidateDamagePercent > 0`, carrying forward the last
computed values if the list is exhausted. -/
def spec_priority_pick (p : Json) : List String → ℚ × ℚ → ℚ × ℚ
  | [], last => last
  | id :: rest, _ =>
    let cand := spec_candidate p id
    if 0 < cand.2 then cand else spec_priority_pick p rest cand

/-- Modelled from the spec: the `(ownerUpgrades, researchDamagePercent)` pair
the priority iteration produces for a payload. -/
def spec_research_result (p : Json) : ℚ × ℚ :=
  spec_priority_pick p spec_priority_ids (0, 0)

/-- Payload on which the priority list and the code diverge: boost-id 30
yields a candidate damage percent of −100 (≤ 0), boost-id 31 yields 400 (> 0),
while boost-id 40 yields −50 with upgrades 20. -/
def payload_cex : Json := Json.obj
  [("BaseBoosts", Json.obj [("31", Json.num 10), ("40", Json.num 20)]),
   ("TotalBoosts", Json.obj [("31", Json.num 5), ("40", Json.num (1/2))]),
   ("Equipment", Json.obj [])]

/-- Payload with zero upgrades on boost-id 40, used as a concrete success
instance of the level computation. -/
def payload_guard : Json := Json.obj
  [("BaseBoosts", Json.obj [("40", Json.num 0)]),
   ("TotalBoosts", Json.obj [("40", Json.num 3)]),
   ("Equipment", Json.obj [])]

/-! ## Guild records, progress computation and ranking (run_update) -/

/-- One per-guild record of the current run, with the fields `run_update`
reads.  The collection code always populates every field, so they are modelled
as total.  Level values are integers (the source boost data is integral). -/
structure GuildRec where
  guildName : String
  nexusLevel : ℤ
  studyLevel : ℤ
  totalUpgrades : ℤ
  guildLevel : ℤ
  guildID : ℤ
deriving DecidableEq

/-- Baseline entry per guild: `{"NexusLevel": ..., "StudyLevel": ...}`. -/
structure BaselineEntry where
  nexusLevel : ℤ
  studyLevel : ℤ
deriving DecidableEq

/-- Lines 758-777 of `run_update`: the per-guild progress and codex-cost
fields, as `(NexusProgress, StudyProgress, TotalCodexCost)`. -/
def progressFor (baselineGuilds : List (String × BaselineEntry)) (g : GuildRec) :
    ℤ × ℤ × ℤ :=
  match baselineGuilds.lookup g.guildName with
  | some base =>
    let nexus_progress := max 0 (g.nexusLevel - base.nexusLevel)
    let study_progress := max 0 (g.studyLevel - base.studyLevel)
    (nexus_progress, study_progress,
      calculate_codex_cost base.nexusLevel nexus_progress +
        calculate_codex_cost base.studyLevel study_progress)
  | none => (0, 0, 0)

/-- Python dict insertion `d[k] = v`: overwrites in place when the key exists
(keeping its position), appends otherwise. -/
def dinsert {α : Type} (m : List (String × α)) (k : String) (v : α) :
    List (String × α) :=
  if (m.lookup k).isSome then m.map (fun p => if p.1 = k then (k, v) else p)
  else m ++ [(k, v)]

/-- A Python dict built from a sequence of key/value pairs (later pairs
overwrite earlier ones). -/
def dictOf {α : Type} (pairs : List (String × α)) : List (String × α) :=
  pairs.foldl (fun m p => dinsert m p.1 p.2) []

/-- The dict comprehension of lines 734-739: guild name to levels. -/
def baselineGuildsOf (current : List GuildRec) : List (String × BaselineEntry) :=
  dictOf (current.map (fun g => (g.guildName, ⟨g.nexusLevel, g.studyLevel⟩)))

/-- The JSON baseline file: `{"date": ..., "created_at": ..., "guilds": ...}`. -/
structure Baseline where
  date : Option String
  created_at : Option String
  guilds : List (String × BaselineEntry)
deriving DecidableEq

/-- Lines 721-747 of `run_update`: the baseline after the new-day check.  A
fresh baseline is written only when the stored date differs from today AND
current guild data is nonempty; otherwise the stored baseline is left as is. -/
def run_update_baseline (today_str timestamp : String) (current : List GuildRec)
    (baseline : Baseline) : Baseline :=
  if baseline.date ≠ some today_str ∧ current ≠ [] then
    { date := some today_str, created_at := some timestamp,
      guilds := baselineGuildsOf current }
  else baseline

/-- The sort key of the final output (run_update lines 790-796):
`(-NexusLevel, -StudyLevel, -TotalUpgrades, -GuildLevel, GuildID)`, compared
lexicographically as Python compares key tuples. -/
def rankKey (g : GuildRec) : ℤ ×ₗ (ℤ ×ₗ (ℤ ×ₗ (ℤ ×ₗ ℤ))) :=
  toLex (-g.nexusLevel, toLex (-g.studyLevel,
    toLex (-g.totalUpgrades, toLex (-g.guildLevel, g.guildID))))

/-- Boolean comparison along the code sort key. -/
def rankLe (a b : GuildRec) : Bool := decide (rankKey a ≤ rankKey b)

/-- The `sorted(current_guilds, key=...)` call: Python sorts stably by the key
tuple; a stable sort by a total preorder has a unique output, so `mergeSort`
with the same comparison is an exact model. -/
def run_update_sort (l : List GuildRec) : List GuildRec := l.mergeSort rankLe

/-- Modelled from the spec (§4.3): ranking key
`(nexusLevel desc, studyLevel desc, totalUpgrades desc, guildId asc)`. -/
def spec_rankKey (g : GuildRec) : ℤ ×ₗ (ℤ ×ₗ (ℤ ×ₗ ℤ)) :=
  toLex (-g.nexusLevel, toLex (-g.studyLevel, toLex (-g.totalUpgrades, g.guildID)))

/-- Two guilds equal on nexus, study and upgrades, differing on guild level
and id: the code key and the spec key order them oppositely. -/
def guildA : GuildRec := ⟨"A", 10, 10, 10, 0, 1⟩

/-- See `guildA`. -/
def guildB : GuildRec := ⟨"B", 10, 10, 10, 5, 2⟩

/-! ## The daily_baselines store (db-interface.py / migration-script.py) -/

/-- One row of the `daily_baselines` table (migration-script.py:50-58). -/
structure BaselineRow where
  date : String
  guild_name : String
  nexus_level : ℤ
  study_level : ℤ
  created_at : String
deriving DecidableEq

/-- The UNIQUE(date, guild_name) key of `daily_baselines`. -/
def rowKey (r : BaselineRow) : String × String := (r.date, r.guild_name)

/-- SQLite `INSERT OR REPLACE` keyed by `UNIQUE(date, guild_name)`: the
conflicting row (if any) is deleted and the new row inserted.  Row order
inside a relational table is not observable; rows are kept deterministically
with the new row last. -/
def insertOrReplace (table : List BaselineRow) (r : BaselineRow) : List BaselineRow :=
  table.filter (fun x => rowKey x != rowKey r) ++ [r]

/-- Function `create_daily_baseline` (db-interface.py:147-172): one `INSERT OR REPLACE`
per guild, all stamped with the same `created_at` timestamp. -/
def create_daily_baseline (table : List BaselineRow)
    (guilds : List (String × ℤ × ℤ)) (date timestamp : String) : List BaselineRow :=
  (guilds.map (fun g => ⟨date, g.1, g.2.1, g.2.2, timestamp⟩ : _ → BaselineRow)).foldl
    insertOrReplace table

/-- Number of rows of the table carrying a given (date, guild_name) key. -/
def countKeyRows (key : String × String) (table : List BaselineRow) : ℕ :=
  table.countP (fun x => rowKey x == key)

/-! ## Concurrent player fetch accumulation (get_multiple_players) -/

/-- Python truthiness of a JSON value (`if data:`). -/
def truthy : Json → Bool
  | .num q => decide (q ≠ 0)
  | .str s => decide (s ≠ "")
  | .obj [] => false
  | .obj (_ :: _) => true
  | .null => false

/-- Body of the result loop of `get_multiple_players`: a completed future
`(name, data)` is recorded with `results[name] = data` when `data` is truthy
(`if data:`), else dropped. -/
def playerStep (results : List (String × Json)) (nd : String × Option Json) :
    List (String × Json) :=
  match nd.2 with
  | some d => if truthy d then dinsert results nd.1 d else results
  | none => results

/-- Function `get_multiple_players` (guild-stats.py:107-131): completed futures arrive
in an arbitrary order; each `(name, data)` with truthy `data` is written into
the `results` dict, which overwrites any earlier entry for the same name. -/
def get_multiple_players (arrivals : List (String × Option Json)) :
    List (String × Json) :=
  arrivals.foldl playerStep []

/-- The last truthy datum an arrival sequence carries for a name (recursing
from the head, a later arrival takes precedence). -/
def lastGood (name : String) : List (String × Option Json) → Option Json
  | [] => none
  | (k, od) :: rest =>
    match lastGood name rest with
    | some v => some v
    | none =>
      if k = name then
        match od with
        | some d => if truthy d then some d else none
        | none => none
      else none

/-- Two results for the same guild name, in both arrival orders. -/
def arrivals_dup : List (String × Option Json) :=
  [("A", some (Json.num 1)), ("A", some (Json.num 2))]

/-- See `arrivals_dup`. -/
def arrivals_dup_rev : List (String × Option Json) :=
  [("A", some (Json.num 2)), ("A", some (Json.num 1))]

/-! ## Helper lemmas -/

lemma toStr_one : toString (1 : ℕ) = "1" := rfl
lemma toStr_two : toString (2 : ℕ) = "2" := rfl
lemma toStr_three : toString (3 : ℕ) = "3" := rfl
lemma toStr_four : toString (4 : ℕ) = "4" := rfl
lemma toStr_five : toString (5 : ℕ) = "5" := rfl
lemma toStr_six : toString (6 : ℕ) = "6" := rfl
lemma toStr_seven : toString (7 : ℕ) = "7" := rfl
lemma toStr_eight : toString (8 : ℕ) = "8" := rfl

lemma sum_range_consecutive (s : ℤ) (n : ℕ) :
    2 * ((List.range n).map (fun (k : ℕ) => s + 1 + (k : ℤ))).sum = n * (2 * s + n + 1) := by
  induction n with
  | zero => simp
  | succ m ih =>
    rw [List.range_succ, List.map_append, List.sum_append]
    simp only [List.map_cons, List.map_nil, List.sum_cons, List.sum_nil]
    push_cast
    push_cast at ih
    linarith

/-! ## C3: the codex cost function -/

/-- C3 counterexample: the claim asserts `cost(100, 5) = 525`, but the sum
`101 + 102 + 103 + 104 + 105` the code computes is 515, which is also what the
closed form `5 * (2 * 100 + 5 + 1) / 2` yields. -/
theorem calculate_codex_cost_100_5_ne_525 :
    calculate_codex_cost 100 5 = 515 ∧ (515 : ℤ) ≠ 525 := by
  constructor
  · decide
  · decide

/-- C3 (amended): `cost(startLevel, progress)` is 0 for `progress ≤ 0`, and for
`progress > 0` it equals the sum `startLevel+1 + ... + startLevel+progress`,
whose closed form `progress * (2*startLevel + progress + 1) / 2` is exact in
integer arithmetic; in particular `cost(100, 5) = 515`. -/
theorem calculate_codex_cost_spec (s p : ℤ) :
    (p ≤ 0 → calculate_codex_cost s p = 0) ∧
    (0 < p → 2 * calculate_codex_cost s p = p * (2 * s + p + 1) ∧
      calculate_codex_cost s p = p * (2 * s + p + 1) / 2) ∧
    calculate_codex_cost 100 5 = 515 := by
  refine ⟨fun h => by simp [calculate_codex_cost, h], fun h => ?_, by decide⟩
  have hn : ¬ p ≤ 0 := not_le.mpr h
  have htn : ((p.toNat : ℤ)) = p := Int.toNat_of_nonneg h.le
  have h2 : 2 * calculate_codex_cost s p = p * (2 * s + p + 1) := by
    rw [calculate_codex_cost, if_neg hn, sum_range_consecutive, htn]
  exact ⟨h2, by omega⟩

/-- Witness for C3 at `s = 100`, `p = 5`. -/
theorem calculate_codex_cost_spec_witness :
    2 * calculate_codex_cost 100 5 = 5 * (2 * 100 + 5 + 1) ∧
      calculate_codex_cost 100 5 = 5 * (2 * 100 + 5 + 1) / 2 :=
  (calculate_codex_cost_spec 100 5).2.1 (by decide)

/-! ## C4: the zero-upgrades guard of the nexus level -/

/-- C4: for `upgrades ≤ 0` the nexus-level computation returns 0 via the guard
branch; the division `researchDamagePercent / (upgrades * 0.02)` lives only in
the other branch, which is unreachable under this precondition. -/
theorem calculate_nexus_level_nonpos_upgrades (r u : ℚ) (h : u ≤ 0) :
    calculate_nexus_level r u = 0 := by
  simp [calculate_nexus_level, h]

/-- Witness for C4 at `r = 5`, `u = -1`. -/
theorem calculate_nexus_level_nonpos_upgrades_witness :
    (-1 : ℚ) ≤ 0 ∧ calculate_nexus_level 5 (-1) = 0 :=
  ⟨by norm_num, calculate_nexus_level_nonpos_upgrades 5 (-1) (by norm_num)⟩

/-! ## C2: per-guild progress against the baseline -/

/-- C2: with a baseline entry, progress is the clamped level delta and the
cost is the sum of the two codex costs from the baseline levels; without one,
all three fields are 0; in every case both progress values are nonnegative. -/
theorem progressFor_spec (bl : List (String × BaselineEntry)) (g : GuildRec) :
    (∀ base, bl.lookup g.guildName = some base →
      progressFor bl g =
        (max 0 (g.nexusLevel - base.nexusLevel),
         max 0 (g.studyLevel - base.studyLevel),
         calculate_codex_cost base.nexusLevel (max 0 (g.nexusLevel - base.nexusLevel)) +
           calculate_codex_cost base.studyLevel (max 0 (g.studyLevel - base.studyLevel)))) ∧
    (bl.lookup g.guildName = none → progressFor bl g = (0, 0, 0)) ∧
    0 ≤ (progressFor bl g).1 ∧ 0 ≤ (progressFor bl g).2.1 := by
  refine ⟨fun base hb => by simp [progressFor, hb], fun hn => by simp [progressFor, hn], ?_, ?_⟩
  · cases hb : bl.lookup g.guildName <;> simp [progressFor, hb]
  · cases hb : bl.lookup g.guildName <;> simp [progressFor, hb]

/-- Witness for C2: the end-to-end scenario of the spec — baseline (100, 50),
current (105, 40): nexus progress 5, study progress clamped to 0, total cost
`cost(100, 5) + cost(50, 0) = 515`. -/
theorem progressFor_spec_witness :
    progressFor [("GuildA", ⟨100, 50⟩)] ⟨"GuildA", 105, 40, 0, 0, 0⟩ = (5, 0, 515) := by
  have h := (progressFor_spec [("GuildA", ⟨100, 50⟩)] ⟨"GuildA", 105, 40, 0, 0, 0⟩).1
    ⟨100, 50⟩ rfl
  rw [h]
  decide

/-! ## C6: same-day baseline reuse in run_update -/

/-- C6: a run whose date equals the stored baseline date leaves the baseline
record unchanged (field by field), and the baseline changes only when the
stored date differs from the current date. -/
theorem run_update_baseline_frame (today ts : String) (cur : List GuildRec)
    (b : Baseline) :
    (b.date = some today → run_update_baseline today ts cur b = b) ∧
    (run_update_baseline today ts cur b ≠ b → b.date ≠ some today) := by
  constructor
  · intro h
    simp [run_update_baseline, h]
  · intro hne h
    exact hne (by simp [run_update_baseline, h])

/-- Witness for C6: a later run on 2025-01-01 with fresh data does not touch
the baseline created for 2025-01-01. -/
theorem run_update_baseline_frame_witness :
    run_update_baseline "2025-01-01" "t2" [guildA]
        ⟨some "2025-01-01", some "t1", [("A", ⟨1, 2⟩)]⟩ =
      ⟨some "2025-01-01", some "t1", [("A", ⟨1, 2⟩)]⟩ :=
  (run_update_baseline_frame "2025-01-01" "t2" [guildA]
    ⟨some "2025-01-01", some "t1", [("A", ⟨1, 2⟩)]⟩).1 rfl

/-! ## C7: fault isolation in the level computation -/

lemma enchantStep_error_slotContrib {item : Json} (h : enchantStep item = .error ()) :
    slotContrib item = .error () := by
  cases item with
  | num q => rfl
  | str s => rfl
  | null => rfl
  | obj fields =>
    rw [enchantStep] at h
    rw [slotContrib]
    simp only [pyGet, Except.bind] at h ⊢
    cases hB : (fields.lookup "Boosts").getD (Json.obj []) with
    | obj bf =>
      rw [hB] at h
      simp [pyGet] at h
    | num q => rfl
    | str s => rfl
    | null => rfl

lemma processSlot_fst (e : Json) (i : ℕ) (en : Json) :
    (processSlot e i en).1 = (slotResult e i).toOption := by
  rw [processSlot, slotResult]
  cases hI : pyGet e (toString i) (Json.obj []) with
  | error u => cases u; rfl
  | ok item =>
    simp only [Except.bind]
    by_cases h5 : i = 5
    · rw [if_pos h5]
      cases hE : enchantStep item with
      | error u =>
        cases u
        rw [enchantStep_error_slotContrib hE]
        rfl
      | ok e2 =>
        cases hC : slotContrib item <;> rfl
    · rw [if_neg h5]
      cases hC : slotContrib item <;> rfl

lemma step_fst (e : Json) (i : ℕ) (acc : ℚ × Json) :
    ((match processSlot e i acc.2 with
      | (some c, en) => (acc.1 + c, en)
      | (none, en) => (acc.1, en)).1) = acc.1 + slotValue e i := by
  rcases hP : processSlot e i acc.2 with ⟨opt, en⟩
  have h1 : opt = (slotResult e i).toOption := by
    rw [← processSlot_fst e i acc.2, hP]
  cases opt with
  | some c =>
    have hv : slotValue e i = c := by
      rw [slotValue, ← h1]
      rfl
    rw [hv]
  | none =>
    have hv : slotValue e i = 0 := by
      rw [slotValue, ← h1]
      rfl
    rw [hv, add_zero]

lemma equipLoop_fst (e : Json) :
    (equipLoop e).1 = ((List.range' 1 8).map (slotValue e)).sum := by
  have h : ∀ (l : List ℕ) (acc : ℚ × Json),
      (l.foldl (fun acc i =>
        match processSlot e i acc.2 with
        | (some c, en) => (acc.1 + c, en)
        | (none, en) => (acc.1, en)) acc).1 = acc.1 + (l.map (slotValue e)).sum := by
    intro l
    induction l with
    | nil => intro acc; simp
    | cons i l ih =>
      intro acc
      rw [List.foldl_cons, ih, List.map_cons, List.sum_cons, step_fst]
      ring
  rw [equipLoop, h]
  rw [zero_add]

lemma equipLoop_empty : equipLoop (Json.obj []) = (0, Json.num 0) := by
  simp [equipLoop, List.range', processSlot, pyGet, slotContrib, enchantStep,
    safe_get_infusions_count, numericSum, asNum, Except.bind, toStr_one, toStr_two,
    toStr_three, toStr_four, toStr_five, toStr_six, toStr_seven, toStr_eight]

/-- C7: (a) the accumulated equipment boost equals the sum over slots 1..8 of
the per-slot value, where a slot whose computation raises contributes exactly
0 and the other slots are still counted (the per-slot `except: continue`
isolates failures, and the function-level handler turns any other exception
into `None` rather than propagating); (b) a payload missing all required
top-level keys yields nexus level 0 and study level 0, not an error. -/
theorem process_guild_owner_data_fault_tolerant :
    (∀ equipments : Json,
      (equipLoop equipments).1 = ((List.range' 1 8).map (slotValue equipments)).sum) ∧
    (∀ fields : List (String × Json),
      fields.lookup "BaseBoosts" = none → fields.lookup "TotalBoosts" = none →
      fields.lookup "Equipment" = none →
      process_guild_owner_data (Json.obj fields) = some ⟨0, -100, 0, 0⟩) := by
  constructor
  · exact equipLoop_fst
  · intro fields h1 h2 h3
    rw [process_guild_owner_data, ownerCalc]
    simp only [pyGet, h1, h2, h3, Option.getD, Except.bind, List.lookup_nil, asNum,
      equipLoop_empty, calculate_study_level, calculate_nexus_level]
    norm_num [Except.toOption]

/-- Witness for C7: a mixed equipment dict whose slot 2 is a bare string
(malformed) while slot 1 is well-formed, and the empty payload. -/
theorem process_guild_owner_data_fault_tolerant_witness :
    (equipLoop (Json.obj [("2", Json.str "bad"),
        ("1", Json.obj [("Boosts", Json.obj [("40", Json.num 100)])])])).1 =
      ((List.range' 1 8).map (slotValue (Json.obj [("2", Json.str "bad"),
        ("1", Json.obj [("Boosts", Json.obj [("40", Json.num 100)])])]))).sum ∧
    process_guild_owner_data (Json.obj []) = some ⟨0, -100, 0, 0⟩ :=
  ⟨process_guild_owner_data_fault_tolerant.1 _,
   process_guild_owner_data_fault_tolerant.2 [] rfl rfl rfl⟩

/-! ## C1: the research-damage derivation uses boost-id 40 only -/

lemma ok_bind {α β : Type} (a : α) (f : α → Except Unit β) :
    (Except.ok a : Except Unit α).bind f = f a := rfl

lemma error_bind {α β : Type} (f : α → Except Unit β) :
    (Except.error () : Except Unit α).bind f = Except.error () := rfl

lemma slotContribValue_eq (item : Json) :
    ((slotContrib item).toOption).getD 0 =
      jnum (jget (jget item "Boosts") "40") *
        (1 + (1/20) * spec_infusion_total (jget item "Infusions")) / 50 := by
  cases item with
  | num q => simp [slotContrib, pyGet, Except.bind, Except.toOption, jget, jnum]
  | str s => simp [slotContrib, pyGet, Except.bind, Except.toOption, jget, jnum]
  | null => simp [slotContrib, pyGet, Except.bind, Except.toOption, jget, jnum]
  | obj fields =>
    rw [slotContrib]
    simp only [pyGet, Except.bind, jget]
    cases hB : fields.lookup "Boosts" with
    | none =>
      simp only [hB, Option.getD_none]
      simp [pyGet, asNum, Except.bind, Except.toOption, jnum, jget]
    | some b =>
      simp only [hB, Option.getD_some]
      cases b with
      | num q => simp [pyGet, Except.toOption, jget, jnum]
      | str s => simp [pyGet, Except.toOption, jget, jnum]
      | null => simp [pyGet, Except.toOption, jget, jnum]
      | obj bf =>
        simp only [pyGet, Except.bind, jget]
        cases hB40 : bf.lookup "40" with
        | none =>
          simp only [hB40, Option.getD_none]
          simp [asNum, Except.toOption, jnum]
        | some w =>
          simp only [hB40, Option.getD_some]
          cases w with
          | num q =>
            simp only [asNum, Except.bind, Except.toOption, Option.getD_some, jnum]
            have hc : safe_get_infusions_count
                ((fields.lookup "Infusions").getD (Json.obj [])) =
                spec_infusion_total ((fields.lookup "Infusions").getD Json.null) := by
              cases hI : fields.lookup "Infusions" with
              | none => rfl
              | some inf => cases inf <;> rfl
            rw [hc]
          | str s => simp [asNum, Except.bind, Except.toOption, jnum]
          | obj wf => simp [asNum, Except.bind, Except.toOption, jnum]
          | null => simp [asNum, Except.bind, Except.toOption, jnum]

lemma slotValue_eq_spec (e : Json) (i : ℕ) :
    slotValue e i = spec_equip_contrib e "40" i := by
  rw [slotValue, slotResult, spec_equip_contrib]
  cases e with
  | num q => simp [pyGet, Except.bind, Except.toOption, jget, jnum, spec_infusion_total]
  | str s => simp [pyGet, Except.bind, Except.toOption, jget, jnum, spec_infusion_total]
  | null => simp [pyGet, Except.bind, Except.toOption, jget, jnum, spec_infusion_total]
  | obj fields =>
    simp only [pyGet, Except.bind, jget]
    cases hL : fields.lookup (toString i) with
    | none =>
      simp only [hL, Option.getD_none]
      simp [slotContrib, pyGet, Except.bind, Except.toOption, asNum, jget, jnum,
        safe_get_infusions_count, numericSum, spec_infusion_total]
    | some item =>
      simp only [hL, Option.getD_some]
      exact slotContribValue_eq item

lemma equipLoop_eq_spec (e : Json) : (equipLoop e).1 = spec_equip_sum e "40" := by
  have hf : slotValue e = spec_equip_contrib e "40" :=
    funext (fun i => slotValue_eq_spec e i)
  rw [equipLoop_fst, spec_equip_sum, hf]

lemma nested_num_eq {p : Json} {key1 key2 : String} {mid leaf : Json} {x : ℚ}
    (h1 : pyGet p key1 (Json.obj []) = .ok mid)
    (h2 : pyGet mid key2 (Json.num 0) = .ok leaf)
    (h3 : asNum leaf = .ok x) :
    x = jnum (jget (jget p key1) key2) := by
  cases p with
  | num q => exact Except.noConfusion h1
  | str s => exact Except.noConfusion h1
  | null => exact Except.noConfusion h1
  | obj pf =>
    simp only [pyGet] at h1
    have hmid := Except.ok.inj h1
    rw [jget]
    cases hL1 : pf.lookup key1 with
    | some v =>
      rw [hL1, Option.getD_some] at hmid
      subst hmid
      rw [Option.getD_some]
      cases v with
      | num q => exact Except.noConfusion h2
      | str s => exact Except.noConfusion h2
      | null => exact Except.noConfusion h2
      | obj bf =>
        simp only [pyGet] at h2
        have hleaf := Except.ok.inj h2
        rw [jget]
        cases hL2 : bf.lookup key2 with
        | some w =>
          rw [hL2, Option.getD_some] at hleaf
          subst hleaf
          rw [Option.getD_some]
          cases w with
          | num q =>
            simp only [asNum] at h3
            have hx := Except.ok.inj h3
            rw [← hx, jnum]
          | str s => exact Except.noConfusion h3
          | obj wf => exact Except.noConfusion h3
          | null => exact Except.noConfusion h3
        | none =>
          rw [hL2, Option.getD_none] at hleaf
          subst hleaf
          simp only [asNum] at h3
          have hx := Except.ok.inj h3
          exact hx.symm
    | none =>
      rw [hL1, Option.getD_none] at hmid
      subst hmid
      simp only [pyGet, List.lookup_nil, Option.getD_none] at h2
      have hleaf := Except.ok.inj h2
      subst hleaf
      simp only [asNum] at h3
      have hx := Except.ok.inj h3
      rw [Option.getD_none, ← hx]
      rfl

lemma equip_sum_of_pyGet {p equipments : Json}
    (h : pyGet p "Equipment" (Json.obj []) = .ok equipments) :
    (equipLoop equipments).1 = spec_equip_sum (jget p "Equipment") "40" := by
  rw [equipLoop_eq_spec]
  cases p with
  | num q => exact Except.noConfusion h
  | str s => exact Except.noConfusion h
  | null => exact Except.noConfusion h
  | obj pf =>
    simp only [pyGet] at h
    have heq := Except.ok.inj h
    rw [jget]
    cases hL : pf.lookup "Equipment" with
    | some v =>
      rw [hL, Option.getD_some] at heq
      subst heq
      rw [Option.getD_some]
    | none =>
      rw [hL, Option.getD_none] at heq
      subst heq
      rw [Option.getD_none]
      rfl

/-- C1 counterexample: a payload realising the scenario of the claim —
candidate id 30 yields a damage percent ≤ 0, candidate id 31 yields one > 0
(so the priority iteration would answer `(upgrades, damage) = (10, 400)` from
id 31), yet the computation in the code succeeds with `(20, -50)`, the values
of id 40 — the claimed priority iteration does not happen. -/
theorem process_guild_owner_data_priority_cex :
    (spec_candidate payload_cex "30").2 ≤ 0 ∧
    0 < (spec_candidate payload_cex "31").2 ∧
    spec_research_result payload_cex = (10, 400) ∧
    (process_guild_owner_data payload_cex).map
      (fun r => (r.ownerUpgrades, r.researchDamagePercent)) = some (20, -50) ∧
    ((20 : ℚ), (-50 : ℚ)) ≠ ((10 : ℚ), (400 : ℚ)) := by
  refine ⟨?_, ?_, ?_, ?_, ?_⟩
  · simp [spec_candidate, spec_equip_sum, spec_equip_contrib, spec_infusion_total,
      jget, jnum, payload_cex, List.range', List.lookup, toStr_one, toStr_two, toStr_three,
      toStr_four, toStr_five, toStr_six, toStr_seven, toStr_eight]
  · simp [spec_candidate, spec_equip_sum, spec_equip_contrib, spec_infusion_total,
      jget, jnum, payload_cex, List.range', List.lookup, toStr_one, toStr_two, toStr_three,
      toStr_four, toStr_five, toStr_six, toStr_seven, toStr_eight]
  · simp [spec_research_result, spec_priority_ids, spec_priority_pick, spec_candidate,
      spec_equip_sum, spec_equip_contrib, spec_infusion_total, jget, jnum, payload_cex,
      List.range', List.lookup, toStr_one, toStr_two, toStr_three, toStr_four, toStr_five,
      toStr_six, toStr_seven, toStr_eight]
    norm_num
  · simp [process_guild_owner_data, ownerCalc, pyGet, asNum, Except.bind,
      Except.toOption, equipLoop, processSlot, slotContrib, enchantStep,
      safe_get_infusions_count, numericSum, payload_cex, List.range', List.lookup,
      toStr_one, toStr_two, toStr_three, toStr_four, toStr_five, toStr_six, toStr_seven,
      toStr_eight]
    norm_num
  · intro hcontra
    have := congrArg Prod.fst hcontra
    norm_num at this

/-- C1 (amended): the code derives `(ownerUpgrades, researchDamagePercent)`
from boost-id 40 alone — whenever `process_guild_owner_data` succeeds, the
upgrades and damage percent it uses are exactly the single candidate
evaluation of the spec at id 40 (`baseBoosts["40"]` and
`totalBoosts["40"]*100 − equipmentContributionSum − 100`); no priority list
is iterated and no fallback to another id occurs. -/
theorem ownerCalc_uses_only_boost40 (p : Json) (r : OwnerCalc)
    (h : ownerCalc p = .ok r) :
    r.ownerUpgrades = (spec_candidate p "40").1 ∧
    r.researchDamagePercent = (spec_candidate p "40").2 := by
  simp only [ownerCalc] at h
  cases hBB : pyGet p "BaseBoosts" (Json.obj []) with
  | error u => cases u; rw [hBB, error_bind] at h; exact Except.noConfusion h
  | ok base_boosts =>
  rw [hBB, ok_bind] at h
  cases hTB : pyGet p "TotalBoosts" (Json.obj []) with
  | error u => cases u; rw [hTB, error_bind] at h; exact Except.noConfusion h
  | ok total_boosts =>
  rw [hTB, ok_bind] at h
  cases hOU : pyGet base_boosts "40" (Json.num 0) with
  | error u => cases u; rw [hOU, error_bind] at h; exact Except.noConfusion h
  | ok owner_upgrades =>
  rw [hOU, ok_bind] at h
  cases hCE : pyGet base_boosts "100" (Json.num 0) with
  | error u => cases u; rw [hCE, error_bind] at h; exact Except.noConfusion h
  | ok codex_exp_boost =>
  rw [hCE, ok_bind] at h
  cases hTE : pyGet total_boosts "100" (Json.num 0) with
  | error u => cases u; rw [hTE, error_bind] at h; exact Except.noConfusion h
  | ok total_exp_boost =>
  rw [hTE, ok_bind] at h
  cases hT40 : pyGet total_boosts "40" (Json.num 0) with
  | error u => cases u; rw [hT40, error_bind] at h; exact Except.noConfusion h
  | ok tb40 =>
  rw [hT40, ok_bind] at h
  cases hT40n : asNum tb40 with
  | error u => cases u; rw [hT40n, error_bind] at h; exact Except.noConfusion h
  | ok tb40n =>
  rw [hT40n, ok_bind] at h
  cases hEq : pyGet p "Equipment" (Json.obj []) with
  | error u => cases u; rw [hEq, error_bind] at h; exact Except.noConfusion h
  | ok equipments =>
  rw [hEq, ok_bind] at h
  cases hTEn : asNum total_exp_boost with
  | error u => cases u; rw [hTEn, error_bind] at h; exact Except.noConfusion h
  | ok te =>
  rw [hTEn, ok_bind] at h
  cases hCEn : asNum codex_exp_boost with
  | error u => cases u; rw [hCEn, error_bind] at h; exact Except.noConfusion h
  | ok ce =>
  rw [hCEn, ok_bind] at h
  cases hEn : asNum (equipLoop equipments).2 with
  | error u => cases u; rw [hEn, error_bind] at h; exact Except.noConfusion h
  | ok en =>
  rw [hEn, ok_bind] at h
  cases hOUn : asNum owner_upgrades with
  | error u => cases u; rw [hOUn, error_bind] at h; exact Except.noConfusion h
  | ok ou =>
  rw [hOUn, ok_bind] at h
  have hrec := Except.ok.inj h
  subst hrec
  constructor
  · exact nested_num_eq hBB hOU hOUn
  · show tb40n * 100 - (equipLoop equipments).1 - 100 = (spec_candidate p "40").2
    rw [spec_candidate]
    rw [← nested_num_eq hTB hT40 hT40n, ← equip_sum_of_pyGet hEq]

/-- Witness for the amended C1 at a concrete payload on which the computation
succeeds: the code result `(0, 200)` equals the spec candidate at id 40. -/
theorem ownerCalc_uses_only_boost40_witness :
    ownerCalc payload_guard = .ok ⟨0, 200, 0, 0⟩ ∧
    (0 : ℚ) = (spec_candidate payload_guard "40").1 ∧
    (200 : ℚ) = (spec_candidate payload_guard "40").2 := by
  have hok : ownerCalc payload_guard = .ok ⟨0, 200, 0, 0⟩ := by
    simp [ownerCalc, pyGet, asNum, Except.bind, equipLoop, processSlot, slotContrib,
      enchantStep, safe_get_infusions_count, numericSum, payload_guard, List.range',
      List.lookup, calculate_study_level, calculate_nexus_level, toStr_one, toStr_two,
      toStr_three, toStr_four, toStr_five, toStr_six, toStr_seven, toStr_eight]
    norm_num
  have hc := ownerCalc_uses_only_boost40 payload_guard ⟨0, 200, 0, 0⟩ hok
  exact ⟨hok, hc.1, hc.2⟩

/-! ## C8: infusions as mapping vs raw number -/

/-- C8: the infusion normalization maps a dict whose numeric values sum to `n`
and the raw number `n` to the same count, and consequently an equipment item
carrying either form of the `Infusions` field (any `Boosts` value alike)
produces the identical slot contribution. -/
theorem infusions_mapping_number_equiv (m : List (String × Json)) (n : ℚ) (b : Json)
    (h : numericSum m = n) :
    safe_get_infusions_count (Json.obj m) = safe_get_infusions_count (Json.num n) ∧
    slotContrib (Json.obj [("Boosts", b), ("Infusions", Json.obj m)]) =
      slotContrib (Json.obj [("Boosts", b), ("Infusions", Json.num n)]) := by
  constructor
  · simp [safe_get_infusions_count, h]
  · simp [slotContrib, pyGet, Except.bind, List.lookup, safe_get_infusions_count, h]

/-- Witness for C8: the mapping `{a: 2, b: 3}` against the raw count 5, with a
well-formed boost value. -/
theorem infusions_mapping_number_equiv_witness :
    numericSum [("a", Json.num 2), ("b", Json.num 3)] = 5 ∧
    safe_get_infusions_count (Json.obj [("a", Json.num 2), ("b", Json.num 3)]) =
      safe_get_infusions_count (Json.num 5) ∧
    slotContrib (Json.obj [("Boosts", Json.obj [("40", Json.num 7)]),
        ("Infusions", Json.obj [("a", Json.num 2), ("b", Json.num 3)])]) =
      slotContrib (Json.obj [("Boosts", Json.obj [("40", Json.num 7)]),
        ("Infusions", Json.num 5)]) := by
  have h5 : numericSum [("a", Json.num 2), ("b", Json.num 3)] = 5 := by
    norm_num [numericSum]
  have hc := infusions_mapping_number_equiv [("a", Json.num 2), ("b", Json.num 3)] 5
    (Json.obj [("40", Json.num 7)]) h5
  exact ⟨h5, hc.1, hc.2⟩

/-! ## C9: the output guild ordering -/

lemma rankLe_trans : ∀ a b c : GuildRec, rankLe a b → rankLe b c → rankLe a c := by
  intro a b c hab hbc
  simp only [rankLe, decide_eq_true_eq] at *
  exact le_trans hab hbc

lemma rankLe_total : ∀ a b : GuildRec, rankLe a b || rankLe b a := by
  intro a b
  rcases le_total (rankKey a) (rankKey b) with h | h <;> simp [rankLe, h]

/-- C9 counterexample: on two guilds tied on nexus, study and upgrades, the
code orders by guild level (descending) before guild id, so the output is not
sorted by the claimed key `(nexus desc, study desc, upgrades desc, id asc)`:
guildB (id 2, level 5) is placed before guildA (id 1, level 0). -/
theorem run_update_sort_not_spec_sorted :
    run_update_sort [guildA, guildB] = [guildB, guildA] ∧
    ¬ (([guildB, guildA] : List GuildRec).Pairwise
        (fun a b => spec_rankKey a ≤ spec_rankKey b)) := by
  constructor
  · rw [run_update_sort, List.mergeSort]
    simp [List.splitInTwo, List.merge]
    decide
  · decide

/-- C9 (amended): the output is sorted by the code key
`(nexusLevel desc, studyLevel desc, totalUpgrades desc, guildLevel desc,
guildId asc)` and is a permutation of the input; being a function of the
input, the order is reproducible across runs with identical input. -/
theorem run_update_sort_sorted (l : List GuildRec) :
    ((run_update_sort l).Pairwise (fun a b => rankKey a ≤ rankKey b)) ∧
    List.Perm (run_update_sort l) l := by
  constructor
  · have h := List.sorted_mergeSort rankLe_trans rankLe_total l
    exact h.imp (fun hab => by simpa [rankLe] using hab)
  · exact List.mergeSort_perm l rankLe

/-! ## C5: idempotence of create_daily_baseline -/

lemma foldl_insertOrReplace (rows : List BaselineRow) :
    ∀ t, rows.foldl insertOrReplace t =
      t.filter (fun x => rows.all (fun r => rowKey x != rowKey r)) ++
        rows.foldl insertOrReplace [] := by
  induction rows with
  | nil => intro t; simp
  | cons r rest ih =>
    intro t
    rw [List.foldl_cons, List.foldl_cons, ih (insertOrReplace t r),
      ih (insertOrReplace [] r), insertOrReplace, insertOrReplace,
      List.filter_nil, List.nil_append, List.filter_append, List.filter_filter,
      List.append_assoc]
    have hp : (fun a => (rest.all fun s => rowKey a != rowKey s) &&
        (rowKey a != rowKey r)) =
        (fun a => (r :: rest).all fun s => rowKey a != rowKey s) := by
      funext a
      rw [List.all_cons, Bool.and_comm]
    rw [hp]

lemma mem_foldl_insertOrReplace (rows : List BaselineRow) :
    ∀ t x, x ∈ rows.foldl insertOrReplace t → x ∈ t ∨ x ∈ rows := by
  induction rows with
  | nil => intro t x h; exact Or.inl h
  | cons r rest ih =>
    intro t x h
    rw [List.foldl_cons] at h
    rcases ih _ x h with h1 | h1
    · rw [insertOrReplace] at h1
      rcases List.mem_append.mp h1 with h2 | h2
      · exact Or.inl (List.mem_of_mem_filter h2)
      · right
        rw [List.mem_singleton] at h2
        subst h2
        exact List.mem_cons_self x rest
    · exact Or.inr (List.mem_cons_of_mem r h1)

lemma all_bne_rowKey_eq_false {rows : List BaselineRow} {x r : BaselineRow}
    (hr : r ∈ rows) (hk : rowKey x = rowKey r) :
    rows.all (fun s => rowKey x != rowKey s) = false := by
  rw [List.all_eq_false]
  exact ⟨r, hr, by simp [hk]⟩

lemma all_bne_rowKey_ts (x : BaselineRow) (guilds : List (String × ℤ × ℤ))
    (date ts1 ts2 : String) :
    ((guilds.map (fun g => (⟨date, g.1, g.2.1, g.2.2, ts1⟩ : BaselineRow))).all
      (fun r => rowKey x != rowKey r)) =
    ((guilds.map (fun g => (⟨date, g.1, g.2.1, g.2.2, ts2⟩ : BaselineRow))).all
      (fun r => rowKey x != rowKey r)) := by
  induction guilds with
  | nil => rfl
  | cons g gs ih =>
    simp only [List.map_cons, List.all_cons]
    rw [ih]
    rfl

lemma countKeyRows_insertOrReplace (key : String × String) (t : List BaselineRow)
    (r : BaselineRow) :
    countKeyRows key (insertOrReplace t r) =
      if key = rowKey r then 1 else countKeyRows key t := by
  rw [countKeyRows, insertOrReplace, List.countP_append]
  by_cases h : key = rowKey r
  · subst h
    rw [if_pos rfl]
    have h0 : List.countP (fun x => rowKey x == rowKey r)
        (t.filter (fun x => rowKey x != rowKey r)) = 0 := by
      rw [List.countP_eq_zero]
      intro a ha
      have hne := List.of_mem_filter ha
      simp only [bne_iff_ne, ne_eq] at hne
      simp [hne]
    rw [h0]
    simp [List.countP_cons]
  · rw [if_neg h]
    have h1 : List.countP (fun x => rowKey x == key) [r] = 0 := by
      simp only [List.countP_cons, List.countP_nil]
      rw [show (rowKey r == key) = false by
        rw [beq_eq_false_iff_ne]
        exact fun hh => h hh.symm]
      rfl
    rw [h1, List.countP_filter, countKeyRows]
    have h2 : ∀ x ∈ t, ((rowKey x == key) && (rowKey x != rowKey r)) ↔ (rowKey x == key) := by
      intro x _
      constructor
      · intro hh
        exact (Bool.and_eq_true _ _ |>.mp hh).1
      · intro hh
        rw [beq_iff_eq] at hh
        rw [hh]
        simp only [beq_self_eq_true, Bool.true_and, bne_iff_ne, ne_eq]
        exact h
    rw [List.countP_congr h2, Nat.add_zero]

lemma countKeyRows_foldl_notmem (key : String × String) (rows : List BaselineRow) :
    ∀ t, key ∉ rows.map rowKey →
      countKeyRows key (rows.foldl insertOrReplace t) = countKeyRows key t := by
  induction rows with
  | nil => intro t _; rfl
  | cons r rest ih =>
    intro t hk
    rw [List.map_cons] at hk
    have hk1 : key ≠ rowKey r := fun h => hk (by rw [h]; exact List.mem_cons_self _ _)
    have hk2 : key ∉ rest.map rowKey := fun h => hk (List.mem_cons_of_mem _ h)
    rw [List.foldl_cons, ih _ hk2, countKeyRows_insertOrReplace, if_neg hk1]

lemma countKeyRows_foldl_mem (key : String × String) (rows : List BaselineRow) :
    ∀ t, key ∈ rows.map rowKey →
      countKeyRows key (rows.foldl insertOrReplace t) = 1 := by
  induction rows with
  | nil => intro t h; simp at h
  | cons r rest ih =>
    intro t hk
    rw [List.foldl_cons]
    by_cases hr : key ∈ rest.map rowKey
    · exact ih _ hr
    · have hk1 : key = rowKey r := by
        rw [List.map_cons] at hk
        rcases List.mem_cons.mp hk with h | h
        · exact h
        · exact absurd h hr
      rw [countKeyRows_foldl_notmem key rest _ hr, countKeyRows_insertOrReplace,
        if_pos hk1]

/-- C5: re-running `create_daily_baseline` for the same date with the same
guild-levels input leaves the `daily_baselines` table exactly as a single run
leaves it — every `(date, guildName)` row is replaced, not duplicated (each
such key holds exactly one row), and this holds whatever timestamp each run
stamps (with equal timestamps the two-run and one-run states are literally
equal). -/
theorem create_daily_baseline_idempotent (t : List BaselineRow)
    (guilds : List (String × ℤ × ℤ)) (date ts1 ts2 : String) :
    create_daily_baseline (create_daily_baseline t guilds date ts1) guilds date ts2 =
      create_daily_baseline t guilds date ts2 ∧
    (∀ g ∈ guilds, countKeyRows (date, g.1) (create_daily_baseline t guilds date ts1) = 1) := by
  constructor
  · rw [create_daily_baseline, create_daily_baseline, create_daily_baseline]
    rw [foldl_insertOrReplace _ ((guilds.map _).foldl insertOrReplace t),
      foldl_insertOrReplace _ t, foldl_insertOrReplace _ t]
    congr 1
    rw [List.filter_append, List.filter_filter]
    have hnil : (((guilds.map (fun g => (⟨date, g.1, g.2.1, g.2.2, ts1⟩ : BaselineRow))).foldl
        insertOrReplace []).filter
          (fun x => (guilds.map (fun g => (⟨date, g.1, g.2.1, g.2.2, ts2⟩ : BaselineRow))).all
            (fun r => rowKey x != rowKey r))) = [] := by
      rw [List.filter_eq_nil_iff]
      intro a ha
      rcases mem_foldl_insertOrReplace _ [] a ha with h | h
      · exact absurd h (List.not_mem_nil a)
      · rcases List.mem_map.mp h with ⟨g, hg, hga⟩
        have hk : rowKey a = rowKey (⟨date, g.1, g.2.1, g.2.2, ts2⟩ : BaselineRow) := by
          rw [← hga]
          rfl
        rw [all_bne_rowKey_eq_false (List.mem_map_of_mem _ hg) hk]
        exact Bool.false_ne_true
    rw [hnil, List.append_nil]
    apply List.filter_congr
    intro x _
    have h12 : ((guilds.map (fun g => (⟨date, g.1, g.2.1, g.2.2, ts1⟩ : BaselineRow))).all
        (fun r => rowKey x != rowKey r)) =
        ((guilds.map (fun g => (⟨date, g.1, g.2.1, g.2.2, ts2⟩ : BaselineRow))).all
        (fun r => rowKey x != rowKey r)) := all_bne_rowKey_ts x guilds date ts1 ts2
    rw [h12, Bool.and_self]
  · intro g hg
    rw [create_daily_baseline]
    apply countKeyRows_foldl_mem
    rw [List.map_map]
    have : (rowKey ∘ fun g : String × ℤ × ℤ =>
        (⟨date, g.1, g.2.1, g.2.2, ts1⟩ : BaselineRow)) =
        (fun g : String × ℤ × ℤ => (date, g.1)) := rfl
    rw [this]
    exact List.mem_map_of_mem _ hg

/-- Witness for C5 with two guilds and an unrelated pre-existing row. -/
theorem create_daily_baseline_idempotent_witness :
    create_daily_baseline
        (create_daily_baseline [⟨"2024-12-31", "Old", 1, 1, "t0"⟩]
          [("A", 3, 4), ("B", 5, 6)] "2025-01-01" "t1")
        [("A", 3, 4), ("B", 5, 6)] "2025-01-01" "t2" =
      create_daily_baseline [⟨"2024-12-31", "Old", 1, 1, "t0"⟩]
        [("A", 3, 4), ("B", 5, 6)] "2025-01-01" "t2" ∧
    countKeyRows ("2025-01-01", "A")
      (create_daily_baseline [⟨"2024-12-31", "Old", 1, 1, "t0"⟩]
        [("A", 3, 4), ("B", 5, 6)] "2025-01-01" "t1") = 1 :=
  ⟨(create_daily_baseline_idempotent [⟨"2024-12-31", "Old", 1, 1, "t0"⟩]
      [("A", 3, 4), ("B", 5, 6)] "2025-01-01" "t1" "t2").1,
   (create_daily_baseline_idempotent [⟨"2024-12-31", "Old", 1, 1, "t0"⟩]
      [("A", 3, 4), ("B", 5, 6)] "2025-01-01" "t1" "t2").2 ("A", 3, 4)
      (List.mem_cons_self _ _)⟩

/-! ## C10: accumulation of concurrently arriving fetch results -/

lemma lookup_map_replace_ne {α : Type} (m : List (String × α)) (k : String) (v : α)
    (name : String) (hne : name ≠ k) :
    (m.map (fun p => if p.1 = k then (k, v) else p)).lookup name = m.lookup name := by
  induction m with
  | nil => rfl
  | cons hd tl ih =>
    by_cases h1 : hd.1 = k
    · have hhd : (if hd.1 = k then (k, v) else hd) = (k, v) := if_pos h1
      have hb : (name == hd.1) = false := by
        simp [h1, hne]
      simp only [List.map_cons, hhd, List.lookup_cons]
      rw [show (name == k) = false by simp [hne]]
      rw [show hd = (hd.1, hd.2) from rfl, List.lookup_cons, hb]
      exact ih
    · have hhd : (if hd.1 = k then (k, v) else hd) = hd := if_neg h1
      simp only [List.map_cons, hhd]
      rw [show hd = (hd.1, hd.2) from rfl, List.lookup_cons, List.lookup_cons]
      cases hb : (name == hd.1) with
      | true => rfl
      | false => exact ih

lemma lookup_map_replace_eq {α : Type} (m : List (String × α)) (k : String) (v : α)
    (hs : (m.lookup k).isSome) :
    (m.map (fun p => if p.1 = k then (k, v) else p)).lookup k = some v := by
  induction m with
  | nil => simp at hs
  | cons hd tl ih =>
    by_cases h1 : hd.1 = k
    · have hhd : (if hd.1 = k then (k, v) else hd) = (k, v) := if_pos h1
      simp only [List.map_cons, hhd, List.lookup_cons]
      simp
    · have hhd : (if hd.1 = k then (k, v) else hd) = hd := if_neg h1
      have hb : (k == hd.1) = false := by
        simp only [beq_eq_false_iff_ne, ne_eq]
        exact fun h => h1 h.symm
      rw [show hd = (hd.1, hd.2) from rfl] at hs ⊢
      rw [List.lookup_cons, hb] at hs
      simp only [List.map_cons, hhd]
      rw [List.lookup_cons, hb]
      exact ih hs

lemma lookup_dinsert {α : Type} (m : List (String × α)) (k : String) (v : α)
    (name : String) :
    (dinsert m k v).lookup name = if name = k then some v else m.lookup name := by
  rw [dinsert]
  by_cases hs : (m.lookup k).isSome
  · rw [if_pos hs]
    by_cases hname : name = k
    · subst hname
      rw [if_pos rfl]
      exact lookup_map_replace_eq m name v hs
    · rw [if_neg hname]
      exact lookup_map_replace_ne m k v name hname
  · rw [if_neg hs, List.lookup_append]
    by_cases hname : name = k
    · subst hname
      rw [if_pos rfl]
      rw [Option.not_isSome_iff_eq_none] at hs
      rw [hs]
      simp
    · rw [if_neg hname]
      have : ([(k, v)] : List (String × α)).lookup name = none := by
        rw [List.lookup_cons, show (name == k) = false by simp [hname]]
        rfl
      rw [this]
      cases m.lookup name <;> rfl

lemma get_multiple_players_loop (l : List (String × Option Json)) :
    ∀ (acc : List (String × Json)) (name : String),
      (l.foldl playerStep acc).lookup name =
        match lastGood name l with
        | some v => some v
        | none => acc.lookup name := by
  induction l with
  | nil => intro acc name; rfl
  | cons hd tl ih =>
    intro acc name
    rw [List.foldl_cons, ih]
    cases htl : lastGood name tl with
    | some v => simp [lastGood, htl]
    | none =>
      simp only [lastGood, htl]
      rcases hd with ⟨k, od⟩
      cases od with
      | none => simp [playerStep]
      | some d =>
        by_cases ht : truthy d
        · simp only [playerStep, ht, if_pos, if_true]
          rw [lookup_dinsert]
          by_cases hk : k = name
          · subst hk
            simp [ht]
          · rw [if_neg (fun h => hk h.symm)]
            simp [hk]
        · simp only [playerStep, ht, if_false]
          by_cases hk : k = name
          · subst hk
            simp [ht]
          · simp [hk]

/-- C10 counterexample: two results for guild "A" arriving in both orders —
the accumulator keeps the later arrival (`Json.num 2` resp. `Json.num 1`), so
the first-seen result is overwritten, not kept, and the produced per-guild
data depends on the arrival order. -/
theorem get_multiple_players_not_first_seen :
    (get_multiple_players arrivals_dup).lookup "A" = some (Json.num 2) ∧
    (get_multiple_players arrivals_dup_rev).lookup "A" = some (Json.num 1) ∧
    Json.num 2 ≠ Json.num 1 := by
  refine ⟨?_, ?_, ?_⟩
  · rw [show get_multiple_players arrivals_dup =
        List.foldl playerStep [] arrivals_dup from rfl, get_multiple_players_loop]
    norm_num [arrivals_dup, lastGood, truthy]
  · rw [show get_multiple_players arrivals_dup_rev =
        List.foldl playerStep [] arrivals_dup_rev from rfl, get_multiple_players_loop]
    norm_num [arrivals_dup_rev, lastGood, truthy]
  · intro h
    injection h with h2
    norm_num at h2

/-- C10 (amended): the accumulator deduplicates by guild name keeping the
LAST truthy result that arrived for each name (a later duplicate overwrites
the earlier one); the mapping produced for a fixed arrival sequence holds
exactly the last-arrived data for each name. -/
theorem get_multiple_players_keeps_last (arrivals : List (String × Option Json))
    (name : String) :
    (get_multiple_players arrivals).lookup name = lastGood name arrivals := by
  rw [show get_multiple_players arrivals = List.foldl playerStep [] arrivals from rfl,
    get_multiple_players_loop]
  cases h : lastGood name arrivals <;> rfl

end GuildStats
